import Mathlib

/-!
# GrooveScope — verification of the waveform/monitor core

Shallow embedding of the GrooveScope backend's two engines and their helpers:

* the audio-processor module (`generatePeaks`, `simulatePeaksExtraction`,
  `extractRealAmplitudes`, `smoothPeaks`, `generateRealisticPeaks`,
  `resamplePeaks`), and
* the YouTube service module (`extractVideoId`, `monitorConversionProgress`,
  `waitForConversion`).

Buffers are modelled as `List ℕ` (byte values), amplitudes as `ℝ`
(JavaScript numbers; the double-precision rounding of the source is not
modelled — all identities proved here are insensitive to it), durations as
`ℚ`, and every effectful collaborator (HTTP fetch, HEAD probe, SSE stream,
`Math.random`) as an explicit oracle argument.
-/

namespace GrooveScope

/-! ## ByteStreamSampler: `simulatePeaksExtraction` helpers

Source: `simulatePeaksExtraction`
`const estimatedDuration = Math.max(30, Math.min(600, fileSize / 20000));`
`const targetPeaks = Math.min(200, Math.max(100, Math.floor(estimatedDuration * 1)));`
(`fileSize / 20000` is exact rational division here; the double rounding of
the source cannot move the floor for any byte length, so `ℚ` is faithful.) -/

def estimatedDuration (fileSize : ℕ) : ℚ :=
  max 30 (min 600 ((fileSize : ℚ) / 20000))

def targetPeaksOf (fileSize : ℕ) : ℕ :=
  min 200 (max 100 (Int.toNat ⌊estimatedDuration fileSize * 1⌋))

/-- Clamp as written in the spec: `clamp(x, lo, hi) = min hi (max lo x)`. -/
def specClamp (x lo hi : ℚ) : ℚ := min hi (max lo x)

/-! ## `extractRealAmplitudes`

Source loop, for chunk `i`:
`startByte = i * chunkSize`, `endByte = min(startByte + chunkSize, L)`,
inner loop `for (j = startByte; j < endByte; j += 20)` guarded by
`j < audioBuffer.length - 1`, accumulating `(buf[j] - 128)^2`. -/

/-- Indices sampled inside one chunk: `startByte, startByte+20, …` strictly
below `endByte`, keeping only those with `j < L - 1` (the source's guard). -/
def chunkIdxs (startByte endByte L : ℕ) : List ℕ :=
  ((List.range ((endByte - startByte + 19) / 20)).map
    (fun t => startByte + 20 * t)).filter (fun j => j < L - 1)

/-- `rms = count > 0 ? Math.sqrt(sum / count) : 0` for one chunk. -/
noncomputable def chunkRms (buf : List ℕ) (startByte endByte : ℕ) : ℝ :=
  let idxs := chunkIdxs startByte endByte buf.length
  let sum : ℤ := (idxs.map (fun j => ((buf.getD j 0 : ℤ) - 128) ^ 2)).sum
  if 0 < idxs.length then Real.sqrt ((sum : ℝ) / (idxs.length : ℝ)) else 0

/-- `normalized = Math.min(1.0, rms / 128)` for one chunk. -/
noncomputable def chunkPeak (buf : List ℕ) (startByte endByte : ℕ) : ℝ :=
  min 1 (chunkRms buf startByte endByte / 128)

/-- One output slot of `smoothPeaks`: the mean of the window
`[max(0, i-1), min(len-1, i+1)]` (truncated ℕ subtraction is exactly
`Math.max(0, i-1)` here). -/
noncomputable def smoothAt (peaks : List ℝ) (i : ℕ) : ℝ :=
  let lo := i - 1
  let hi := min (peaks.length - 1) (i + 1)
  let idxs := (List.range (hi + 1 - lo)).map (fun t => lo + t)
  ((idxs.map (fun j => peaks.getD j 0)).sum) / (idxs.length : ℝ)

/-- `smoothPeaks`: windowed moving average, window radius 1. -/
noncomputable def smoothPeaks (peaks : List ℝ) : List ℝ :=
  (List.range peaks.length).map (smoothAt peaks)

/-- `extractRealAmplitudes`: per-chunk normalized RMS followed by the
smoothing pass (the source function returns `this.smoothPeaks(peaks)`). -/
noncomputable def extractRealAmplitudes (buf : List ℕ) (targetPeaks : ℕ) : List ℝ :=
  let chunkSize := buf.length / targetPeaks
  smoothPeaks ((List.range targetPeaks).map (fun i =>
    chunkPeak buf (i * chunkSize) (min (i * chunkSize + chunkSize) buf.length)))

/-! ### Basic sampler lemmas (shared by several claims) -/

theorem smoothPeaks_length (peaks : List ℝ) : (smoothPeaks peaks).length = peaks.length := by
  simp [smoothPeaks]

theorem extractRealAmplitudes_length (buf : List ℕ) (targetPeaks : ℕ) :
    (extractRealAmplitudes buf targetPeaks).length = targetPeaks := by
  simp [extractRealAmplitudes, smoothPeaks_length]

theorem chunkRms_nonneg (buf : List ℕ) (s e : ℕ) : 0 ≤ chunkRms buf s e := by
  unfold chunkRms
  dsimp only
  split
  · exact Real.sqrt_nonneg _
  · exact le_refl 0

theorem chunkPeak_unit (buf : List ℕ) (s e : ℕ) :
    0 ≤ chunkPeak buf s e ∧ chunkPeak buf s e ≤ 1 := by
  constructor
  · exact le_min one_pos.le (div_nonneg (chunkRms_nonneg buf s e) (by norm_num))
  · exact min_le_left _ _

/-- The mean of list values that all lie in `[0, 1]` lies in `[0, 1]`
(with the `x / 0 = 0` convention covering the empty list). -/
theorem listAvg_unit (l : List ℕ) (f : ℕ → ℝ) (h : ∀ j ∈ l, 0 ≤ f j ∧ f j ≤ 1) :
    0 ≤ (l.map f).sum / (l.length : ℝ) ∧ (l.map f).sum / (l.length : ℝ) ≤ 1 := by
  have hsum0 : 0 ≤ (l.map f).sum := by
    refine List.sum_nonneg ?_
    intro x hx
    rcases List.mem_map.mp hx with ⟨j, hj, rfl⟩
    exact (h j hj).1
  constructor
  · exact div_nonneg hsum0 (Nat.cast_nonneg _)
  · rcases Nat.eq_zero_or_pos l.length with hz | hp
    · rw [List.eq_nil_of_length_eq_zero hz]
      norm_num
    · rw [div_le_one (by exact_mod_cast hp)]
      have hle := List.sum_le_card_nsmul (l.map f) 1 (by
        intro x hx
        rcases List.mem_map.mp hx with ⟨j, hj, rfl⟩
        exact (h j hj).2)
      simpa using hle

theorem smoothAt_unit (peaks : List ℝ) (i : ℕ)
    (h : ∀ x ∈ peaks, 0 ≤ x ∧ x ≤ 1) : 0 ≤ smoothAt peaks i ∧ smoothAt peaks i ≤ 1 := by
  unfold smoothAt
  dsimp only
  rw [List.map_map, List.length_map]
  refine listAvg_unit _ _ ?_
  intro j _
  dsimp [Function.comp]
  by_cases hj : (i - 1) + j < peaks.length
  · have hmem : peaks.getD ((i - 1) + j) 0 ∈ peaks := by
      rw [List.getD_eq_getElem peaks 0 hj]
      exact List.getElem_mem hj
    exact h _ hmem
  · rw [List.getD_eq_default peaks 0 (le_of_not_lt hj)]
    norm_num

theorem smoothPeaks_unit (peaks : List ℝ)
    (h : ∀ x ∈ peaks, 0 ≤ x ∧ x ≤ 1) :
    ∀ v ∈ smoothPeaks peaks, 0 ≤ v ∧ v ≤ 1 := by
  intro v hv
  rcases List.mem_map.mp hv with ⟨i, _, rfl⟩
  exact smoothAt_unit peaks i h

theorem extractRealAmplitudes_unit (buf : List ℕ) (targetPeaks : ℕ) :
    ∀ v ∈ extractRealAmplitudes buf targetPeaks, 0 ≤ v ∧ v ≤ 1 := by
  intro v hv
  refine smoothPeaks_unit _ ?_ v hv
  intro x hx
  rcases List.mem_map.mp hx with ⟨i, _, rfl⟩
  exact chunkPeak_unit buf _ _

/-- C4: for every non-empty byte buffer, the sampler
(`extractRealAmplitudes`, which ends in the `smoothPeaks` pass) produces
exactly `targetPeaks` values, and every value lies in `[0, 1]`. -/
theorem sampler_card_and_range (buf : List ℕ) (targetPeaks : ℕ) (_hbuf : buf ≠ []) :
    (extractRealAmplitudes buf targetPeaks).length = targetPeaks ∧
      ∀ v ∈ extractRealAmplitudes buf targetPeaks, 0 ≤ v ∧ v ≤ 1 :=
  ⟨extractRealAmplitudes_length buf targetPeaks, extractRealAmplitudes_unit buf targetPeaks⟩

/-- Witness for C4 at the concrete buffer `[0, 1]` and target `2`. -/
theorem sampler_card_and_range_witness :
    ([0, 1] : List ℕ) ≠ [] ∧
      ((extractRealAmplitudes [0, 1] 2).length = 2 ∧
        ∀ v ∈ extractRealAmplitudes [0, 1] 2, 0 ≤ v ∧ v ≤ 1) :=
  ⟨by decide, sampler_card_and_range [0, 1] 2 (by decide)⟩

/-- C7: the engine's duration estimate and peak-count choice follow the
spec's clamp formulas, so the peak count always lies in `[100, 200]`. -/
theorem targetPeaks_clamped (L : ℕ) :
    estimatedDuration L = specClamp ((L : ℚ) / 20000) 30 600 ∧
      (targetPeaksOf L : ℤ) = min 200 (max 100 ⌊estimatedDuration L⌋) ∧
      100 ≤ targetPeaksOf L ∧ targetPeaksOf L ≤ 200 := by
  have hfloor : (30 : ℤ) ≤ ⌊estimatedDuration L⌋ := by
    refine Int.le_floor.mpr ?_
    exact_mod_cast le_max_left 30 (min 600 ((L : ℚ) / 20000))
  refine ⟨?_, ?_, ?_, ?_⟩
  · rw [estimatedDuration, specClamp, max_min_distrib_left]
    norm_num
  · rw [targetPeaksOf, mul_one]
    push_cast [Int.toNat_of_nonneg (le_trans (by norm_num) hfloor)]
    rfl
  · exact le_min (by norm_num) (le_max_left 100 _)
  · exact min_le_left 200 _

/-! ## C10: guarded RMS division and sub-`targetPeaks` buffers -/

theorem smoothAt_replicate_zero (t i : ℕ) :
    smoothAt (List.replicate t (0 : ℝ)) i = 0 := by
  unfold smoothAt
  dsimp only
  rw [List.map_map]
  have hz : ∀ j : ℕ, (List.replicate t (0 : ℝ)).getD j 0 = 0 := by
    intro j
    by_cases hj : j < t
    · rw [List.getD_eq_getElem _ 0 (by simpa using hj)]
      simp
    · rw [List.getD_eq_default _ 0 (by simpa using le_of_not_lt hj)]
  have hmap : ∀ l : List ℕ, (l.map ((fun j => (List.replicate t (0 : ℝ)).getD j 0) ∘
      fun s => (i - 1) + s)).sum = 0 := by
    intro l
    refine List.sum_eq_zero ?_
    intro x hx
    rcases List.mem_map.mp hx with ⟨j, _, rfl⟩
    exact hz _
  rw [hmap]
  exact zero_div _

theorem chunkPeak_degenerate (buf : List ℕ) : chunkPeak buf 0 0 = 0 := by
  have hidx : chunkIdxs 0 0 buf.length = [] := by
    unfold chunkIdxs
    norm_num
  unfold chunkPeak chunkRms
  rw [hidx]
  norm_num

/-- C10: the RMS division is guarded (a chunk with zero sampled bytes has
RMS `0`, no division by zero occurs), and a non-empty buffer shorter than
`targetPeaks` floors the chunk size to zero, so the sampler still returns
exactly `targetPeaks` values, all equal to `0`. -/
theorem rms_guard_and_small_buffer :
    (∀ (buf : List ℕ) (s e : ℕ), chunkIdxs s e buf.length = [] → chunkRms buf s e = 0) ∧
      ∀ (buf : List ℕ) (target : ℕ), buf ≠ [] → buf.length < target →
        extractRealAmplitudes buf target = List.replicate target 0 := by
  constructor
  · intro buf s e h
    unfold chunkRms
    rw [h]
    norm_num
  · intro buf target _ hlt
    unfold extractRealAmplitudes
    dsimp only
    rw [Nat.div_eq_of_lt hlt]
    have hbody : ∀ i : ℕ, chunkPeak buf (i * 0) (min (i * 0 + 0) buf.length) = 0 := by
      intro i
      rw [Nat.mul_zero, Nat.add_zero, Nat.zero_min]
      exact chunkPeak_degenerate buf
    calc smoothPeaks ((List.range target).map
            (fun i => chunkPeak buf (i * 0) (min (i * 0 + 0) buf.length)))
        = smoothPeaks ((List.range target).map (fun _ => (0 : ℝ))) := by
          refine congrArg smoothPeaks (List.map_congr_left ?_)
          intro i _
          exact hbody i
      _ = smoothPeaks (List.replicate target (0 : ℝ)) := by
          rw [List.map_const']
          simp
      _ = List.replicate target 0 := by
          unfold smoothPeaks
          rw [List.length_replicate]
          refine List.eq_replicate_iff.mpr ⟨by simp, ?_⟩
          intro b hb
          rcases List.mem_map.mp hb with ⟨i, _, rfl⟩
          exact smoothAt_replicate_zero target i

/-- Witness for C10 at the concrete buffer `[200]` and target `3`. -/
theorem rms_guard_and_small_buffer_witness :
    chunkRms [] 0 0 = 0 ∧ extractRealAmplitudes [200] 3 = List.replicate 3 0 :=
  ⟨rms_guard_and_small_buffer.1 [] 0 0 (by decide),
    rms_guard_and_small_buffer.2 [200] 3 (by decide) (by decide)⟩

/-! ## `resamplePeaks` (auxiliary peak-array utility)

Source:
`if (!peaks || peaks.length === 0) return [];`
`if (peaks.length === targetLength) return peaks;`
`ratio = peaks.length / targetLength;`
`result.push(peaks[Math.floor(i * ratio)] || 0)` for `i < targetLength`.
(`peaks[idx] || 0` returns the stored number for an in-range index — a stored
`0` is falsy but `0 || 0` is still `0` — and `0` for an out-of-range one,
which is exactly `getD idx 0`.) -/

noncomputable def resamplePeaks (peaks : List ℝ) (targetLength : ℕ) : List ℝ :=
  if peaks.isEmpty then []
  else if peaks.length = targetLength then peaks
  else
    (List.range targetLength).map (fun (i : ℕ) =>
      peaks.getD (Int.toNat ⌊(i : ℚ) * ((peaks.length : ℚ) / (targetLength : ℚ))⌋) 0)

/-- C8: `resamplePeaks` returns `[]` on empty input; on non-empty input and
positive target it returns exactly `targetLength` values, each one an
element of the input sequence (nearest-index selection, no interpolation). -/
theorem resamplePeaks_spec (peaks : List ℝ) (targetLength : ℕ) :
    (peaks = [] → resamplePeaks peaks targetLength = []) ∧
      (peaks ≠ [] → 0 < targetLength →
        (resamplePeaks peaks targetLength).length = targetLength ∧
          ∀ v ∈ resamplePeaks peaks targetLength, v ∈ peaks) := by
  constructor
  · intro h
    rw [resamplePeaks, if_pos (List.isEmpty_iff.mpr h)]
  · intro hne htl
    have hlen : 0 < peaks.length := List.length_pos.mpr hne
    rw [resamplePeaks, if_neg (by simpa using hne)]
    by_cases heq : peaks.length = targetLength
    · rw [if_pos heq]
      exact ⟨heq, fun v hv => hv⟩
    · rw [if_neg heq]
      refine ⟨by rw [List.length_map, List.length_range], ?_⟩
      intro v hv
      rcases List.mem_map.mp hv with ⟨i, hi, rfl⟩
      have hi' : i < targetLength := List.mem_range.mp hi
      have hq : (i : ℚ) * ((peaks.length : ℚ) / (targetLength : ℚ)) < (peaks.length : ℚ) := by
        rw [mul_div_assoc']
        rw [div_lt_iff₀ (by exact_mod_cast htl)]
        have : (i : ℚ) < (targetLength : ℚ) := by exact_mod_cast hi'
        calc (i : ℚ) * (peaks.length : ℚ)
            < (targetLength : ℚ) * (peaks.length : ℚ) := by
              exact mul_lt_mul_of_pos_right this (by exact_mod_cast hlen)
          _ = (peaks.length : ℚ) * (targetLength : ℚ) := mul_comm _ _
      have hfl : ⌊(i : ℚ) * ((peaks.length : ℚ) / (targetLength : ℚ))⌋ < (peaks.length : ℤ) := by
        exact Int.floor_lt.mpr (by exact_mod_cast hq)
      have hidx : Int.toNat ⌊(i : ℚ) * ((peaks.length : ℚ) / (targetLength : ℚ))⌋ < peaks.length := by
        omega
      rw [List.getD_eq_getElem peaks 0 hidx]
      exact List.getElem_mem hidx

/-- Witness for C8 at the concrete sequence `[2]` and target `3`. -/
theorem resamplePeaks_spec_witness :
    (resamplePeaks [(2 : ℝ)] 3).length = 3 ∧ ∀ v ∈ resamplePeaks [(2 : ℝ)] 3, v ∈ [(2 : ℝ)] :=
  (resamplePeaks_spec [(2 : ℝ)] 3).2 (by simp) (by norm_num)

/-! ## `simulatePeaksExtraction` / `generatePeaks` (pipeline boundary, C1)

The result object of `simulatePeaksExtraction` carries exactly the fields
the source builds: `{peaks, duration, sampleRate: 44100, channels: 2,
length, bits: 16}`. There is no `source`/`synthetic` tag anywhere in the
module. -/

structure PeaksData where
  peaks : List ℝ
  duration : ℚ
  sampleRate : ℕ
  channels : ℕ
  length : ℕ
  bits : ℕ

/-- `simulatePeaksExtraction(audioBuffer)`. The `samplerFault` oracle is
`true` when the `try` body throws. In that case the source's `catch` block
runs `return this.generateFallbackPeaks(targetPeaks, estimatedDuration)` —
but `targetPeaks` and `estimatedDuration` are `const`s declared inside the
`try` block, out of scope in the `catch`, so the catch block itself throws
a `ReferenceError` instead of producing the fallback. -/
noncomputable def simulatePeaksExtraction (buf : List ℕ) (samplerFault : Bool) :
    Except String PeaksData :=
  if samplerFault then Except.error "ReferenceError: targetPeaks is not defined"
  else
    let peaks := extractRealAmplitudes buf (targetPeaksOf buf.length)
    Except.ok
      { peaks := peaks
        duration := estimatedDuration buf.length
        sampleRate := 44100
        channels := 2
        length := peaks.length
        bits := 16 }

/-- `generatePeaks(audioUrl, videoId)`. The `fetched` oracle is the outcome
of the axios download: a transport error, a response with no data
(`!response.data`), or a byte buffer. The source's `catch` block ends in
`throw error`, so every failure is re-raised to the caller (the `finally`
cleanup does not change the outcome). -/
noncomputable def generatePeaks (fetched : Except String (Option (List ℕ)))
    (samplerFault : Bool) : Except String PeaksData :=
  match fetched with
  | Except.error e => Except.error e
  | Except.ok none => Except.error "No audio data received"
  | Except.ok (some buf) => simulatePeaksExtraction buf samplerFault

/-- Counterexample to C1: feeding `generatePeaks` an unreachable asset
location (the fetch rejects) propagates the fetch error to the caller —
no `PeaksResult` is returned and no synthetic fallback is produced. -/
theorem generatePeaks_propagates_counterexample :
    generatePeaks (Except.error "getaddrinfo ENOTFOUND bad.invalid") false =
        Except.error "getaddrinfo ENOTFOUND bad.invalid" ∧
      ∀ pd : PeaksData,
        generatePeaks (Except.error "getaddrinfo ENOTFOUND bad.invalid") false ≠
          Except.ok pd := by
  exact ⟨rfl, fun pd h => Except.noConfusion h⟩

/-- C1 (amended): `generatePeaks` propagates failures instead of falling
back: a fetch error is re-raised verbatim; an internal sampling error makes
the `catch` block itself raise a `ReferenceError` (its fallback arguments
are out of scope there); only a fault-free run on fetched bytes returns a
result, whose peak count is the engine's computed target. -/
theorem generatePeaks_error_behavior (e : String) (fault : Bool) (buf : List ℕ) :
    generatePeaks (Except.error e) fault = Except.error e ∧
      generatePeaks (Except.ok (some buf)) true =
        Except.error "ReferenceError: targetPeaks is not defined" ∧
      ∃ pd : PeaksData,
        generatePeaks (Except.ok (some buf)) false = Except.ok pd ∧
          pd.peaks.length = targetPeaksOf buf.length := by
  refine ⟨rfl, rfl, ⟨_, rfl, ?_⟩⟩
  exact extractRealAmplitudes_length buf (targetPeaksOf buf.length)

/-! ## `waitForConversion` (polling strategy, C3/C5)

Each probe is one `axios.head(downloadUrl, { timeout: 10000 })`: it either
resolves with an HTTP status (axios accepts any 2xx without throwing) or
throws (network error / non-2xx / its own 10 s timeout). `dur` is the
probe's wall-clock duration in ms. -/

inductive ProbeRes where
  | ok (status : ℕ)
  | err
deriving DecidableEq, Repr

structure Probe where
  dur : ℕ
  res : ProbeRes
deriving DecidableEq, Repr

/-- Outcome of the polling loop: whether the URL was returned (`ready`),
total wall-clock time in ms (`elapsed` = probe durations + waits), and the
total scheduled wait time alone (`waited`). -/
structure PollOutcome where
  ready : Bool
  elapsed : ℕ
  waited : ℕ
deriving DecidableEq, Repr

/-- The loop body of `waitForConversion`, fuel = remaining attempts:
`if (response.status === 200) return downloadUrl;` on a resolved probe,
otherwise retry; on a thrown probe, wait `min(5000, 1000 * attempt)` before
the retry — but only when `attempt < maxAttempts`. -/
def pollAux (probe : ℕ → Probe) (maxAttempts : ℕ) :
    ℕ → ℕ → ℕ → ℕ → PollOutcome
  | 0, _, elapsed, waited => ⟨false, elapsed, waited⟩
  | fuel + 1, attempt, elapsed, waited =>
    let p := probe attempt
    match p.res with
    | ProbeRes.ok s =>
      if s = 200 then ⟨true, elapsed + p.dur, waited⟩
      else pollAux probe maxAttempts fuel (attempt + 1) (elapsed + p.dur) waited
    | ProbeRes.err =>
      if attempt < maxAttempts then
        pollAux probe maxAttempts fuel (attempt + 1)
          (elapsed + p.dur + min 5000 (1000 * attempt))
          (waited + min 5000 (1000 * attempt))
      else pollAux probe maxAttempts fuel (attempt + 1) (elapsed + p.dur) waited

/-- `waitForConversion(downloadUrl, conversionId, maxAttempts)`: attempts
run `1, 2, …, maxAttempts`; exhausting them throws the conversion-timeout
error (modelled as `ready = false`). -/
def waitForConversion (probe : ℕ → Probe) (maxAttempts : ℕ) : PollOutcome :=
  pollAux probe maxAttempts maxAttempts 1 0 0

/-! ## `monitorConversionProgress` (SSE strategy, C3/C6) -/

/-- One SSE frame: either `JSON.parse(event.data)` throws (`malformed`), or
it yields a record with a `status` string and optional `downloadUrl` /
`message` fields. -/
inductive SSEEvent where
  | malformed
  | msg (status : String) (downloadUrl : Option String) (message : Option String)

inductive SSEOutcome where
  | resolvedUrl (u : String)
  | rejected (m : String)
deriving DecidableEq, Repr

/-- JavaScript truthiness of an optional string field: absent and `""` are
falsy. -/
def truthyStr : Option String → Bool
  | none => false
  | some s => !(s == "")

/-- The terminal check the `onmessage` handler applies to one parsed event:
`data.status === 'completed' && data.downloadUrl` resolves with the URL;
`data.status === 'error' || data.status === 'failed'` rejects with
`data.message || 'Conversion failed'`; anything else (including a malformed
frame, which is only logged) leaves the stream running. -/
def sseTerminal : SSEEvent → Option SSEOutcome
  | SSEEvent.malformed => none
  | SSEEvent.msg status downloadUrl message =>
    if status == "completed" && truthyStr downloadUrl then
      some (SSEOutcome.resolvedUrl (downloadUrl.getD ""))
    else if status == "error" || status == "failed" then
      some (SSEOutcome.rejected
        (match message with
          | some m => if m == "" then "Conversion failed" else m
          | none => "Conversion failed"))
    else none

/-- The promise settles on the first terminal event; every earlier event is
either malformed (logged, skipped) or a non-terminal progress frame. -/
def processEvents (events : List SSEEvent) : Option SSEOutcome :=
  events.findSome? sseTerminal

/-- One item arriving on the SSE connection: a frame or an `onerror`. -/
inductive StreamItem where
  | ev (e : SSEEvent)
  | connError

/-- `monitorConversionProgress(sseUrl)` with its 5-minute overall timer:
the input is the arrival-ordered stream with arrival times in ms. The
`setTimeout` rejection fires at 300 000 ms if nothing terminal (or no
`onerror`) arrived earlier; returns the outcome and the settle time. -/
def monitorConversionProgress : List (ℕ × StreamItem) → SSEOutcome × ℕ
  | [] => (SSEOutcome.rejected "Conversion timeout: Process took too long", 300000)
  | (t, item) :: rest =>
    if 300000 ≤ t then
      (SSEOutcome.rejected "Conversion timeout: Process took too long", 300000)
    else
      match item with
      | StreamItem.connError => (SSEOutcome.rejected "SSE connection failed", t)
      | StreamItem.ev e =>
        match sseTerminal e with
        | some (SSEOutcome.resolvedUrl u) => (SSEOutcome.resolvedUrl u, t)
        | some (SSEOutcome.rejected m) => (SSEOutcome.rejected m, t)
        | none => monitorConversionProgress rest

/-! ## C6: SSE event classification -/

/-- C6: a `completed` event with a present (non-empty) asset URL resolves
the monitor with exactly that URL as soon as every earlier event is
non-terminal; an `error`/`failed` event rejects with that event's message;
a malformed event is skipped without settling or terminating the stream. -/
theorem sse_event_classification :
    (∀ (pre : List SSEEvent) (u : String) (message : Option String) (rest : List SSEEvent),
        u ≠ "" → (∀ e ∈ pre, sseTerminal e = none) →
        processEvents (pre ++ SSEEvent.msg "completed" (some u) message :: rest) =
          some (SSEOutcome.resolvedUrl u)) ∧
      (∀ (status : String) (downloadUrl : Option String) (m : String),
          (status = "error" ∨ status = "failed") → m ≠ "" →
          sseTerminal (SSEEvent.msg status downloadUrl (some m)) =
            some (SSEOutcome.rejected m)) ∧
      ∀ rest : List SSEEvent,
        processEvents (SSEEvent.malformed :: rest) = processEvents rest := by
  refine ⟨?_, ?_, ?_⟩
  · intro pre u message rest hu hpre
    induction pre with
    | nil =>
      have hterm : sseTerminal (SSEEvent.msg "completed" (some u) message) =
          some (SSEOutcome.resolvedUrl u) := by
        have htr : truthyStr (some u) = true := by
          simp [truthyStr, hu]
        simp [sseTerminal, htr]
      simp [processEvents, List.findSome?_cons, hterm]
    | cons e pre ih =>
      have he : sseTerminal e = none := hpre e (List.mem_cons_self e pre)
      have hpre' : ∀ x ∈ pre, sseTerminal x = none := by
        intro x hx
        exact hpre x (List.mem_cons_of_mem e hx)
      calc processEvents ((e :: pre) ++ SSEEvent.msg "completed" (some u) message :: rest)
          = processEvents (pre ++ SSEEvent.msg "completed" (some u) message :: rest) := by
            simp [processEvents, List.findSome?_cons, he]
        _ = some (SSEOutcome.resolvedUrl u) := ih hpre'
  · intro status downloadUrl m hst hm
    have hns : (status == "completed") = false := by
      rcases hst with rfl | rfl <;> decide
    have hrj : (status == "error" || status == "failed") = true := by
      rcases hst with rfl | rfl <;> decide
    simp [sseTerminal, hns, hrj, hm]
  · intro rest
    simp [processEvents, List.findSome?_cons, sseTerminal]

/-- Witness for C6 at concrete events. -/
theorem sse_event_classification_witness :
    processEvents [SSEEvent.msg "completed" (some "https://cdn/x.mp3") none] =
        some (SSEOutcome.resolvedUrl "https://cdn/x.mp3") ∧
      sseTerminal (SSEEvent.msg "failed" none (some "quota exceeded")) =
        some (SSEOutcome.rejected "quota exceeded") ∧
      processEvents [SSEEvent.malformed] = processEvents [] :=
  ⟨sse_event_classification.1 [] "https://cdn/x.mp3" none [] (by decide)
      (by intro e he; exact absurd he (List.not_mem_nil e)),
    sse_event_classification.2.1 "failed" none "quota exceeded" (Or.inr rfl) (by decide),
    sse_event_classification.2.2 []⟩

/-! ## C3: no shared wall-clock ceiling across the two strategies -/

/-- Counterexample to C3: a job whose probes all throw after the full 10 s
HEAD timeout keeps the polling strategy busy for 435 000 ms — 300 000 ms of
probe time plus the 135 000 ms backoff schedule — well past the 300 000 ms
ceiling that governs only the SSE strategy, and it then fails as
`exhausted`, not as a ceiling-triggered timeout. -/
theorem polling_exceeds_sse_ceiling :
    waitForConversion (fun _ => ⟨10000, ProbeRes.err⟩) 30 = ⟨false, 435000, 135000⟩ ∧
      300000 < 435000 := by
  constructor
  · rfl
  · decide

theorem pollAux_elapsed_le (probe : ℕ → Probe) (M : ℕ)
    (hdur : ∀ n, (probe n).dur ≤ 10000) :
    ∀ (fuel attempt elapsed waited : ℕ),
      (pollAux probe M fuel attempt elapsed waited).elapsed ≤ elapsed + fuel * 15000 := by
  intro fuel
  induction fuel with
  | zero => intro attempt elapsed waited; simp [pollAux]
  | succ fuel ih =>
    intro attempt elapsed waited
    have hd := hdur attempt
    have hstep : (fuel + 1) * 15000 = fuel * 15000 + 15000 := by ring
    rw [pollAux]
    rcases hres : (probe attempt).res with s | _ <;> dsimp only
    · by_cases hs : s = 200
      · rw [if_pos hs]
        dsimp only
        omega
      · rw [if_neg hs]
        have := ih (attempt + 1) (elapsed + (probe attempt).dur) waited
        omega
    · have hw : min 5000 (1000 * attempt) ≤ 5000 := min_le_left _ _
      by_cases ha : attempt < M
      · rw [if_pos ha]
        have := ih (attempt + 1)
          (elapsed + (probe attempt).dur + min 5000 (1000 * attempt))
          (waited + min 5000 (1000 * attempt))
        omega
      · rw [if_neg ha]
        have := ih (attempt + 1) (elapsed + (probe attempt).dur) waited
        omega

/-- C3 (amended): the two monitor strategies do not share a wall-clock
ceiling. Only the SSE strategy has one: its 300 000 ms timer bounds its
settle time for every stream. The polling strategy is bounded only by its
attempt budget: with every probe within its own 10 000 ms HEAD timeout, 30
attempts take at most 450 000 ms (and can actually reach 435 000 ms,
beyond the SSE ceiling). -/
theorem monitor_timeout_per_strategy :
    (∀ stream : List (ℕ × StreamItem), (monitorConversionProgress stream).2 ≤ 300000) ∧
      ∀ probe : ℕ → Probe, (∀ n, (probe n).dur ≤ 10000) →
        (waitForConversion probe 30).elapsed ≤ 450000 := by
  constructor
  · intro stream
    induction stream with
    | nil => simp [monitorConversionProgress]
    | cons hd rest ih =>
      obtain ⟨t, item⟩ := hd
      simp only [monitorConversionProgress]
      by_cases ht : 300000 ≤ t
      · rw [if_pos ht]
      · rw [if_neg ht]
        rcases item with e | _
        · rcases he : sseTerminal e with _ | out
          · simpa [he] using ih
          · rcases out with u | m <;> simp [he] <;> omega
        · dsimp only
          omega
  · intro probe hdur
    have h := pollAux_elapsed_le probe 30 hdur 30 1 0 0
    simpa [waitForConversion] using h

/-- Witness for C3's amended statement on a concrete stream and probe. -/
theorem monitor_timeout_per_strategy_witness :
    (monitorConversionProgress [(100, StreamItem.connError)]).2 ≤ 300000 ∧
      (waitForConversion (fun _ => ⟨9000, ProbeRes.err⟩) 30).elapsed ≤ 450000 :=
  ⟨monitor_timeout_per_strategy.1 [(100, StreamItem.connError)],
    monitor_timeout_per_strategy.2 (fun _ => ⟨9000, ProbeRes.err⟩) (fun _ => by norm_num)⟩

/-! ## C5: the polling schedule -/

/-- Counterexample to C5: a probe that resolves with HTTP 204 on attempt 1
(axios accepts any 2xx without throwing, and the loop's wait lives in the
`catch` block) retries immediately with no scheduled wait, so when the
probe first returns 200 on attempt `k = 2` the cumulative scheduled wait is
`0`, not the claimed `min(5000, 1000·1) = 1000`. -/
theorem poll_wait_schedule_counterexample :
    waitForConversion
        (fun n => if n = 1 then ⟨0, ProbeRes.ok 204⟩ else ⟨0, ProbeRes.ok 200⟩) 30 =
        ⟨true, 0, 0⟩ ∧
      (0 : ℕ) ≠ ∑ j in Finset.Ico 1 2, min 5000 (1000 * j) := by
  constructor
  · rfl
  · decide

theorem pollAux_err_run (probe : ℕ → Probe) (M k : ℕ) (hkM : k ≤ M)
    (hk : (probe k).res = ProbeRes.ok 200) :
    ∀ (fuel attempt elapsed waited : ℕ), attempt ≤ k → fuel = M + 1 - attempt →
      (∀ j, attempt ≤ j → j < k → (probe j).res = ProbeRes.err) →
      (pollAux probe M fuel attempt elapsed waited).ready = true ∧
        (pollAux probe M fuel attempt elapsed waited).waited =
          waited + ∑ j in Finset.Ico attempt k, min 5000 (1000 * j) := by
  intro fuel
  induction fuel with
  | zero => intro attempt elapsed waited hak hfuel _; omega
  | succ fuel ih =>
    intro attempt elapsed waited hak hfuel herr
    rw [pollAux]
    by_cases heq : attempt = k
    · subst heq
      rw [hk]
      dsimp only
      rw [if_pos rfl]
      exact ⟨rfl, by simp⟩
    · have hlt : attempt < k := lt_of_le_of_ne hak heq
      rw [herr attempt (le_refl attempt) hlt]
      dsimp only
      rw [if_pos (lt_of_lt_of_le hlt hkM)]
      have hrec := ih (attempt + 1)
        (elapsed + (probe attempt).dur + min 5000 (1000 * attempt))
        (waited + min 5000 (1000 * attempt)) hlt (by omega)
        (fun j hj1 hj2 => herr j (by omega) hj2)
      refine ⟨hrec.1, ?_⟩
      rw [hrec.2, Finset.sum_eq_sum_Ico_succ_bot hlt]
      ring

/-- C5 (amended): a scheduled wait happens only after a probe that throws,
and that wait before retrying attempt `k+1` is `min(5000, 1000·k)`; a probe
resolving with status 200 returns immediately; a probe resolving with a
non-200 (2xx) status retries immediately with no scheduled wait; probes
that all throw exhaust the 30-attempt budget and fail. Consequently, when
every probe before the first 200 throws, the cumulative scheduled wait is
`∑_{j=1}^{k-1} min(5000, 1000·j)`. -/
theorem poll_wait_schedule :
    (∀ (probe : ℕ → Probe) (k : ℕ), 1 ≤ k → k ≤ 30 →
        (∀ j, 1 ≤ j → j < k → (probe j).res = ProbeRes.err) →
        (probe k).res = ProbeRes.ok 200 →
        (waitForConversion probe 30).ready = true ∧
          (waitForConversion probe 30).waited =
            ∑ j in Finset.Ico 1 k, min 5000 (1000 * j)) ∧
      (∀ (probe : ℕ → Probe) (fuel attempt elapsed waited s : ℕ),
          (probe attempt).res = ProbeRes.ok s → s ≠ 200 →
          pollAux probe 30 (fuel + 1) attempt elapsed waited =
            pollAux probe 30 fuel (attempt + 1) (elapsed + (probe attempt).dur) waited) ∧
      ∀ probe : ℕ → Probe, (∀ j, (probe j).res = ProbeRes.err) →
        (waitForConversion probe 30).ready = false := by
  refine ⟨?_, ?_, ?_⟩
  · intro probe k hk1 hk30 herr hok
    have h := pollAux_err_run probe 30 k hk30 hok 30 1 0 0 hk1 (by omega)
      (fun j hj1 hj2 => herr j hj1 hj2)
    exact ⟨h.1, by simpa [waitForConversion] using h.2⟩
  · intro probe fuel attempt elapsed waited s hres hs
    rw [pollAux, hres]
    dsimp only
    rw [if_neg hs]
  · intro probe herr
    have haux : ∀ (fuel attempt elapsed waited : ℕ),
        (pollAux probe 30 fuel attempt elapsed waited).ready = false := by
      intro fuel
      induction fuel with
      | zero => intro attempt elapsed waited; rfl
      | succ fuel ih =>
        intro attempt elapsed waited
        rw [pollAux, herr attempt]
        dsimp only
        by_cases ha : attempt < 30
        · rw [if_pos ha]; exact ih _ _ _
        · rw [if_neg ha]; exact ih _ _ _
    exact haux 30 1 0 0

/-- Witness for C5's amended statement: the spec's own example — probes 1
and 2 throw, probe 3 returns 200 — waits `1000 + 2000 = 3000` ms total. -/
theorem poll_wait_schedule_witness :
    (waitForConversion (fun n => if n < 3 then ⟨0, ProbeRes.err⟩ else ⟨0, ProbeRes.ok 200⟩)
          30).ready = true ∧
      (waitForConversion (fun n => if n < 3 then ⟨0, ProbeRes.err⟩ else ⟨0, ProbeRes.ok 200⟩)
          30).waited = ∑ j in Finset.Ico 1 3, min 5000 (1000 * j) := by
  refine poll_wait_schedule.1 _ 3 (by norm_num) (by norm_num) ?_ (by norm_num)
  intro j hj1 hj2
  have : j < 3 := hj2
  simp [this]

/-! ## `extractVideoId` (C9)

Source regex:
`/(?:youtube\.com\x2f(?:[^\x2f]+\x2f.+\x2f|(?:v|e(?:mbed)?)\x2f|.*[?&]v=)|youtu\.be\x2f)([^"&?\x2f\s]{11})/`
(`\x2f` stands for the escaped slash). `url.match(regex)` returns the first
match scanning start positions left to right; `match[1]` is the capture
group, a run of exactly 11 characters outside `"&?/` and whitespace, which
begins where one of the prefix alternatives ends. The model enumerates,
for every start position `m`, every position where a prefix alternative
can stop, and captures at the first position from which 11 id-characters
can be read; only the set of candidate stop positions (not the engine's
visiting order) matters for the properties stated here. -/

/-- JavaScript regex `\s`. -/
def isJsWhitespace (c : Char) : Bool :=
  c == ' ' || c == '\t' || c == '\n' || c.toNat == 11 || c.toNat == 12 || c == '\r' ||
  c.toNat == 0xa0 || c.toNat == 0x1680 ||
  (Nat.ble 0x2000 c.toNat && Nat.ble c.toNat 0x200a) ||
  c.toNat == 0x2028 || c.toNat == 0x2029 || c.toNat == 0x202f || c.toNat == 0x205f ||
  c.toNat == 0x3000 || c.toNat == 0xfeff

/-- The capture class `[^"&?\x2f\s]`. -/
def idCharOk (c : Char) : Bool :=
  !(c == '"' || c == '&' || c == '?' || c == '/' || isJsWhitespace c)

/-- JavaScript regex `.` (anything but a line terminator). -/
def dotOk (c : Char) : Bool :=
  !(c == '\n' || c == '\r' || c.toNat == 0x2028 || c.toNat == 0x2029)

def charAt (s : List Char) (i : ℕ) : Char := s.getD i ' '

/-- The literal `pat` occurs at position `i`. -/
def litAt (s : List Char) (i : ℕ) (pat : List Char) : Bool :=
  (s.drop i).take pat.length == pat

/-- Every character at an index in `[lo, hi)` satisfies `p`. -/
def rangeAll (s : List Char) (lo hi : ℕ) (p : Char → Bool) : Bool :=
  ((s.drop lo).take (hi - lo)).all p

/-- The capture group `([^"&?\x2f\s]{11})` read from position `e`. -/
def captureAt (s : List Char) (e : ℕ) : Option (List Char) :=
  if Nat.ble 11 (s.length - e) && ((s.drop e).take 11).all idCharOk then
    some ((s.drop e).take 11)
  else none

/-- Stop positions of `[^\x2f]+\x2f.+\x2f` started at `q0`: a nonempty
slash-free run up to `a`, a slash at `a`, a nonempty `.`-run up to `b`, a
slash at `b`. -/
def inner1Ends (s : List Char) (q0 : ℕ) : List ℕ :=
  (List.range (s.length + 1)).flatMap (fun a =>
    (List.range (s.length + 1)).filterMap (fun b =>
      if Nat.blt q0 a && Nat.blt a s.length && rangeAll s q0 a (fun c => !(c == '/')) &&
          (charAt s a == '/') && Nat.blt (a + 1) b && Nat.blt b s.length &&
          rangeAll s (a + 1) b dotOk && (charAt s b == '/') then
        some (b + 1)
      else none))

/-- Stop positions of `(?:v|e(?:mbed)?)\x2f` started at `q0`. -/
def inner2Ends (s : List Char) (q0 : ℕ) : List ℕ :=
  (if litAt s q0 ('v' :: '/' :: []) then [q0 + 2] else []) ++
  (if litAt s q0 ('e' :: 'm' :: 'b' :: 'e' :: 'd' :: '/' :: []) then [q0 + 6] else []) ++
  (if litAt s q0 ('e' :: '/' :: []) then [q0 + 2] else [])

/-- Stop positions of `.*[?&]v=` started at `q0`. -/
def inner3Ends (s : List Char) (q0 : ℕ) : List ℕ :=
  (List.range s.length).filterMap (fun c =>
    if Nat.ble q0 c && rangeAll s q0 c dotOk &&
        (charAt s c == '?' || charAt s c == '&') && Nat.blt c s.length &&
        litAt s (c + 1) ('v' :: '=' :: []) then
      some (c + 3)
    else none)

/-- Stop positions, at start position `m`, of the whole non-capturing
prefix `(?:youtube\.com\x2f(?:…)|youtu\.be\x2f)`. -/
def prefixEnds (s : List Char) (m : ℕ) : List ℕ :=
  (if litAt s m ('y' :: 'o' :: 'u' :: 't' :: 'u' :: 'b' :: 'e' :: '.' :: 'c' :: 'o' :: 'm' :: '/' :: []) then
    inner1Ends s (m + 12) ++ inner2Ends s (m + 12) ++ inner3Ends s (m + 12)
  else []) ++
  (if litAt s m ('y' :: 'o' :: 'u' :: 't' :: 'u' :: '.' :: 'b' :: 'e' :: '/' :: []) then
    [m + 9]
  else [])

/-- `extractVideoId(url)`: `match ? match[1] : null`. -/
def extractVideoId (url : String) : Option String :=
  ((List.range (url.data.length + 1)).findSome? (fun m =>
    (prefixEnds url.data m).findSome? (fun e => captureAt url.data e))).map
    (fun l => String.mk l)

theorem captureAt_length {s : List Char} {e : ℕ} {l : List Char}
    (h : captureAt s e = some l) : l.length = 11 := by
  unfold captureAt at h
  by_cases hc : (Nat.ble 11 (s.length - e) && ((s.drop e).take 11).all idCharOk) = true
  · rw [if_pos hc] at h
    have hl : l = (s.drop e).take 11 := (Option.some.injEq _ _).mp h.symm
    have h11 : 11 ≤ s.length - e := Nat.le_of_ble_eq_true (Bool.and_elim_left hc)
    rw [hl, List.length_take, List.length_drop]
    omega
  · rw [if_neg hc] at h
    exact absurd h (Option.noConfusion)

/-- C9: `extractVideoId` returns `null` or the regex's capture group — a
string of exactly 11 characters; it never returns any other length. -/
theorem extractVideoId_length (url : String) (v : String)
    (h : extractVideoId url = some v) : v.length = 11 := by
  unfold extractVideoId at h
  rcases Option.map_eq_some'.mp h with ⟨l, hfind, rfl⟩
  rcases List.exists_of_findSome?_eq_some hfind with ⟨m, _, hm⟩
  rcases List.exists_of_findSome?_eq_some hm with ⟨e, _, he⟩
  have := captureAt_length he
  simpa [String.length] using this

/-- Witness for C9 on a concrete short-form URL. -/
theorem extractVideoId_length_witness :
    extractVideoId "https://youtu.be/dQw4w9WgXcQ" = some "dQw4w9WgXcQ" ∧
      ("dQw4w9WgXcQ" : String).length = 11 :=
  ⟨by decide, extractVideoId_length "https://youtu.be/dQw4w9WgXcQ" "dQw4w9WgXcQ" (by decide)⟩

/-! ## `generateRealisticPeaks` (procedural fallback, C2)

The generator reads `this.currentVideoId || 'default'` and
`this.currentAudioSize || 1000000`, hashes the id with
`h = ((h << 5) - h + charCode) & 0xffffffff` (signed 32-bit wrap), and
takes `seed = Math.abs(hash + audioSize) % 10000`. Every call to
`Math.random()` is modelled by reading the next value of an explicit
stream `rand : ℕ → ℝ` at a running cursor `k`: pattern family 2 consumes
one value for its noise term, and every iteration consumes one value for
the 5% spike test (plus one more for the spike height when it fires). -/

/-- `ToInt32` (the effect of `& 0xffffffff` / `<<` on a JS number). -/
def toInt32 (z : ℤ) : ℤ := (z + 2 ^ 31) % 2 ^ 32 - 2 ^ 31

/-- One step of `videoIdHash = ((videoIdHash << 5) - videoIdHash + c) & 0xffffffff`. -/
def hashStep (h : ℤ) (c : ℕ) : ℤ := toInt32 (toInt32 (h * 32) - h + c)

def videoIdHash (s : String) : ℤ := s.data.foldl (fun h c => hashStep h c.toNat) 0

/-- `seed = Math.abs(videoIdHash + audioSize) % 10000` with the `||`
defaults applied (both `undefined` and the falsy `""` / `0` fall back). -/
def seedOf (videoId : Option String) (audioSize : Option ℕ) : ℕ :=
  let vid := match videoId with
    | some v => if v = "" then "default" else v
    | none => "default"
  let size : ℕ := match audioSize with
    | some n => if n = 0 then 1000000 else n
    | none => 1000000
  (videoIdHash vid + size).natAbs % 10000

/-- The `switch (patternType)` amplitude for slot `i`, together with the
random-stream cursor after it (only family 2 consumes a value). -/
noncomputable def patternAmp (seed numPeaks : ℕ) (rand : ℕ → ℝ) (i k : ℕ) : ℝ × ℕ :=
  let progress : ℝ := (i : ℝ) / (numPeaks : ℝ)
  if seed % 4 = 0 then
    (0.3 + 0.5 * Real.sin (progress * Real.pi * 6 + (seed : ℝ) * 0.001)
      + 0.2 * Real.sin (progress * Real.pi * 20 + (seed : ℝ) * 0.002), k)
  else if seed % 4 = 1 then
    ((0.2 + 0.6 * |Real.sin (progress * Real.pi * 12 + (seed : ℝ) * 0.001)|)
      * (1 + 0.3 * Real.sin (progress * Real.pi * 40 + (seed : ℝ) * 0.003)), k)
  else if seed % 4 = 2 then
    (0.1 + 0.7 * progress * Real.sin (progress * Real.pi * 8 + (seed : ℝ) * 0.001)
      + 0.3 * rand k * ((seed % 100 : ℕ) : ℝ) / 100, k + 1)
  else if seed % 4 = 3 then
    (if (i + seed) % 20 < 3 then
      (0.2 + 0.5 * Real.sin (progress * Real.pi * 3 + (seed : ℝ) * 0.001)) * 1.8
    else 0.2 + 0.5 * Real.sin (progress * Real.pi * 3 + (seed : ℝ) * 0.001), k)
  else (0.3 + 0.4 * Real.sin (progress * Real.pi * 4), k)

/-- One loop iteration: pattern amplitude, deterministic `randomFactor`
perturbation, the `Math.random() < 0.05` spike boost, fade-in/out over the
first/last 5 %, and the final clamp to `[-1, 1]`. -/
noncomputable def genStep (seed numPeaks : ℕ) (rand : ℕ → ℝ) (i k : ℕ) : ℝ × ℕ :=
  let pa := patternAmp seed numPeaks rand i k
  let a1 := pa.1 + ((((seed + i) % 1000 : ℕ) : ℝ) / 1000 - 0.5) * 0.3
  let boosted : ℝ × ℕ :=
    if rand pa.2 < 0.05 then (a1 + rand (pa.2 + 1) * 0.4, pa.2 + 2) else (a1, pa.2 + 1)
  let progress : ℝ := (i : ℝ) / (numPeaks : ℝ)
  let a3 :=
    if progress < 0.05 then boosted.1 * (progress / 0.05)
    else if progress > 0.95 then boosted.1 * ((1 - progress) / 0.05)
    else boosted.1
  (max (-1) (min 1 a3), boosted.2)

noncomputable def genAux (seed numPeaks : ℕ) (rand : ℕ → ℝ) : ℕ → ℕ → ℕ → List ℝ
  | 0, _, _ => []
  | r + 1, i, k =>
    (genStep seed numPeaks rand i k).1 ::
      genAux seed numPeaks rand r (i + 1) (genStep seed numPeaks rand i k).2

/-- `generateRealisticPeaks(numPeaks, duration)` (the `duration` argument
is unused by the source body). -/
noncomputable def generateRealisticPeaks (videoId : Option String) (audioSize : Option ℕ)
    (numPeaks : ℕ) (rand : ℕ → ℝ) : List ℝ :=
  genAux (seedOf videoId audioSize) numPeaks rand numPeaks 0 0

/-- What one pattern-family-2 iteration produces when its spike draw does
not fire (cursor `2m` holds the noise draw, `2m + 1` the spike test). -/
noncomputable def p2elem (seed numPeaks : ℕ) (rand : ℕ → ℝ) (m : ℕ) : ℝ :=
  let progress : ℝ := (m : ℝ) / (numPeaks : ℝ)
  let a1 := 0.1 + 0.7 * progress * Real.sin (progress * Real.pi * 8 + (seed : ℝ) * 0.001)
    + 0.3 * rand (2 * m) * ((seed % 100 : ℕ) : ℝ) / 100
    + ((((seed + m) % 1000 : ℕ) : ℝ) / 1000 - 0.5) * 0.3
  let a3 :=
    if progress < 0.05 then a1 * (progress / 0.05)
    else if progress > 0.95 then a1 * ((1 - progress) / 0.05)
    else a1
  max (-1) (min 1 a3)

theorem genAux_pattern2 (seed numPeaks : ℕ) (rand : ℕ → ℝ) (hseed : seed % 4 = 2)
    (hboost : ∀ j, (0.05 : ℝ) ≤ rand (2 * j + 1)) :
    ∀ r i, genAux seed numPeaks rand r i (2 * i) =
      (List.range r).map (fun t => p2elem seed numPeaks rand (i + t)) := by
  intro r
  induction r with
  | zero => intro i; simp [genAux]
  | succ r ih =>
    intro i
    have hpa : patternAmp seed numPeaks rand i (2 * i) =
        (0.1 + 0.7 * ((i : ℝ) / (numPeaks : ℝ)) *
            Real.sin ((i : ℝ) / (numPeaks : ℝ) * Real.pi * 8 + (seed : ℝ) * 0.001)
          + 0.3 * rand (2 * i) * ((seed % 100 : ℕ) : ℝ) / 100, 2 * i + 1) := by
      unfold patternAmp
      rw [hseed]
      norm_num
    have hstep : genStep seed numPeaks rand i (2 * i) =
        (p2elem seed numPeaks rand i, 2 * i + 2) := by
      unfold genStep
      rw [hpa]
      dsimp only
      rw [if_neg (not_lt.mpr (hboost i))]
      unfold p2elem
      dsimp only
    simp only [genAux, hstep]
    have h2 : 2 * i + 2 = 2 * (i + 1) := by ring
    rw [h2, ih (i + 1), List.range_succ_eq_map]
    simp only [List.map_cons, List.map_map, Nat.add_zero]
    refine congrArg₂ List.cons rfl ?_
    refine List.map_congr_left ?_
    intro t _
    simp only [Function.comp]
    congr 1
    omega

/-- Two `Math.random` streams that agree except on draw 20 (the noise draw
of slot 10) and never fire the 5 % spike test. -/
noncomputable def randRunA : ℕ → ℝ := fun k => if k = 20 then 0 else 1 / 2

noncomputable def randRunB : ℕ → ℝ := fun k => if k = 20 then 1 else 1 / 2

theorem p2elem_eval_at10 (rand : ℕ → ℝ) :
    p2elem 9898 100 rand 10 =
      max (-1) (min 1 (0.1 + 0.7 * ((10 : ℝ) / 100) *
        Real.sin ((10 : ℝ) / 100 * Real.pi * 8 + (9898 : ℝ) * 0.001)
        + 0.3 * rand 20 * 98 / 100 + (908 / 1000 - 0.5) * 0.3)) := by
  unfold p2elem
  norm_num

/-- C2 refuted: `generateRealisticPeaks` consults `Math.random()` (the
pattern-family-2 noise term and the 5 % spike boost), so two invocations
with identical `(videoId, audioSize, numPeaks)` inputs — here video id
`"a"`, size 9801 (seed 9898, family 2), 100 peaks — produce different
output sequences when the ambient random draws differ. -/
theorem generateRealisticPeaks_nondeterministic :
    generateRealisticPeaks (some "a") (some 9801) 100 randRunA ≠
      generateRealisticPeaks (some "a") (some 9801) 100 randRunB := by
  have hseed : seedOf (some "a") (some 9801) = 9898 := by decide
  have hboostA : ∀ j, (0.05 : ℝ) ≤ randRunA (2 * j + 1) := by
    intro j
    have hne : 2 * j + 1 ≠ 20 := by omega
    simp only [randRunA, if_neg hne]
    norm_num
  have hboostB : ∀ j, (0.05 : ℝ) ≤ randRunB (2 * j + 1) := by
    intro j
    have hne : 2 * j + 1 ≠ 20 := by omega
    simp only [randRunB, if_neg hne]
    norm_num
  have hA : generateRealisticPeaks (some "a") (some 9801) 100 randRunA =
      (List.range 100).map (fun t => p2elem 9898 100 randRunA t) := by
    unfold generateRealisticPeaks
    rw [hseed]
    have h := genAux_pattern2 9898 100 randRunA (by norm_num) hboostA 100 0
    simpa using h
  have hB : generateRealisticPeaks (some "a") (some 9801) 100 randRunB =
      (List.range 100).map (fun t => p2elem 9898 100 randRunB t) := by
    unfold generateRealisticPeaks
    rw [hseed]
    have h := genAux_pattern2 9898 100 randRunB (by norm_num) hboostB 100 0
    simpa using h
  intro heq
  rw [hA, hB] at heq
  have h10 : p2elem 9898 100 randRunA 10 = p2elem 9898 100 randRunB 10 := by
    have hc := congrArg (fun l : List ℝ => l[10]?) heq
    simpa [List.getElem?_map, List.getElem?_range] using hc
  rw [p2elem_eval_at10, p2elem_eval_at10] at h10
  have hrA : randRunA 20 = 0 := by simp [randRunA]
  have hrB : randRunB 20 = 1 := by simp [randRunB]
  rw [hrA, hrB] at h10
  set S := Real.sin ((10 : ℝ) / 100 * Real.pi * 8 + (9898 : ℝ) * 0.001) with hS
  have hS1 : -1 ≤ S := Real.neg_one_le_sin _
  have hS2 : S ≤ 1 := Real.sin_le_one _
  set vA : ℝ := 0.1 + 0.7 * ((10 : ℝ) / 100) * S + 0.3 * 0 * 98 / 100
    + (908 / 1000 - 0.5) * 0.3 with hvA
  set vB : ℝ := 0.1 + 0.7 * ((10 : ℝ) / 100) * S + 0.3 * 1 * 98 / 100
    + (908 / 1000 - 0.5) * 0.3 with hvB
  have hA1 : vA ≤ 1 := by rw [hvA]; nlinarith
  have hA2 : (-1 : ℝ) ≤ vA := by rw [hvA]; nlinarith
  have hB1 : vB ≤ 1 := by rw [hvB]; nlinarith
  have hB2 : (-1 : ℝ) ≤ vB := by rw [hvB]; nlinarith
  rw [min_eq_right hA1, max_eq_right hA2, min_eq_right hB1, max_eq_right hB2] at h10
  rw [hvA, hvB] at h10
  nlinarith [h10]

end GrooveScope
